import Mathlib

/-!
# Verification of the ADAL challenge parser and self-signed JWT builder

Shallow embedding of `adal/authentication_parameters.py` and
`adal/self_signed_jwt.py`, together with proofs settling the frozen claims
about them.

Strings are modelled as `List Char` (via `String.data`); Python exceptions
are modelled by the inductive `PyErr`, and fallible Python functions return
`Except PyErr _`.  The embedding restricts attention to ASCII text: Python's
`\s`, `\d` and `str.lower` are Unicode-aware, and are modelled here by their
ASCII behaviour.
-/

/-- Python exception values, one constructor per exception type the embedded
code can raise.  `argumentError` models the error raised by the `argument`
validation module, which is not part of the sources (spec §7 calls this
class ArgumentError). -/
inductive PyErr where
  | attributeError (msg : String)
  | valueError (msg : String)
  | nameError (msg : String)
  | typeError (msg : String)
  | assertionError (msg : String)
  | argumentError (msg : String)
deriving DecidableEq

/-- The spec's §7 error taxonomy. -/
inductive SpecErrorClass where
  | argumentError
  | parseError
  | protocolError
  | assertionError
deriving DecidableEq

/-- `\s` of the Python `re` module, restricted to ASCII:
space, tab, newline, carriage return, vertical tab, form feed. -/
def isPySpace (c : Char) : Bool :=
  c = ' ' || c = '\t' || c = '\n' || c = '\r' || c = '\x0b' || c = '\x0c'

/-- The challenge-key character class `[^,\s="]` of the three regexes in
`parse_challenge`: any character except comma, whitespace, `=` and `"`. -/
def isKeyChar (c : Char) : Bool :=
  !(c = ',' || isPySpace c || c = '=' || c = '"')

/--
One `key="value"` fragment, matched at the front of `l`.

This embeds the regex fragment `([^,\s="]+?)="([^"]*?)"` shared by all
three regexes of `parse_challenge`.  The lazy `+?` on the key is equivalent
to a maximal run of key characters followed by a literal `=`, because the
key class excludes `=` (the run stops at the first `=` either way); the
lazy `([^"]*?)"` on the value takes characters up to the first `"`.
Returns the key, the value, and the remainder after the closing quote.
-/
def matchPairCore (l : List Char) : Option (List Char × List Char × List Char) :=
  let key := l.takeWhile isKeyChar
  if key.isEmpty then none
  else
    match l.dropWhile isKeyChar with
    | '=' :: '"' :: r2 =>
      (match r2.dropWhile (fun c => c != '"') with
       | '"' :: r3 => some (key, r2.takeWhile (fun c => c != '"'), r3)
       | _ => none)
    | _ => none

/-- The regex fragment `Bearer\s+` applied at the front of `l` (which is the
input with its leading `\s*` already removed): the literal `Bearer`, then at
least one whitespace character, then any further whitespace. -/
def stripBearer (l : List Char) : Option (List Char) :=
  match l with
  | 'B' :: 'e' :: 'a' :: 'r' :: 'e' :: 'r' :: rest =>
    match rest with
    | c :: r => if isPySpace c then some (r.dropWhile isPySpace) else none
    | [] => none
  | _ => none

/--
The repeating tail `(,\s*([^,\s="]+?)="([^"]*?)"\s*)*$` of the whole-challenge
validation regex `bearer_challenge_structure_validation`, applied after the
first pair and its trailing `\s*` have been removed: the list must be empty,
or start with a comma followed by optional whitespace, a pair, optional
whitespace, and recursively another such tail.  (Python's `$` also matches
just before a final newline, but a final newline is itself `\s`, so the
preceding `\s*` subsumes that case.)

The first argument is recursion fuel; each step consumes at least the
leading comma, so fuel equal to the list length suffices (see
`validTailF_fuelIndep`).
-/
def validTailF : Nat → List Char → Bool
  | _, [] => true
  | 0, _ :: _ => false
  | n + 1, c :: r =>
    if c = ',' then
      match matchPairCore (r.dropWhile isPySpace) with
      | some (_, _, rest) => validTailF n (rest.dropWhile isPySpace)
      | none => false
    else false

/-- `validTailF` with sufficient fuel. -/
def validTail (l : List Char) : Bool :=
  validTailF l.length l

/--
The whole-challenge structure check of `parse_challenge`:
`re.search('^\s*Bearer\s+([^,\s="]+?)="([^"]*?)"\s*(,\s*([^,\s="]+?)="([^"]*?)"\s*)*$', s)`
as a Boolean.  `^` anchors the search at position 0 (no MULTILINE flag).
-/
def validate (s : List Char) : Bool :=
  match stripBearer (s.dropWhile isPySpace) with
  | none => false
  | some r =>
    match matchPairCore r with
    | none => false
    | some (_, _, rest) => validTailF s.length (rest.dropWhile isPySpace)

/-- `first_key_value_pair_regex.search`: the anchored
`^\s*Bearer\s+([^,\s="]+?)="([^"]*?)"\s*` match, returning groups 1 and 2. -/
def firstPair (s : List Char) : Option (List Char × List Char) :=
  match stripBearer (s.dropWhile isPySpace) with
  | none => none
  | some r =>
    match matchPairCore r with
    | some (k, v, _) => some (k, v)
    | none => none

/--
`all_other_key_value_pair_regex.finditer`: every non-overlapping,
leftmost-first match of `(?:,\s*([^,\s="]+?)="([^"]*?)"\s*)` in the whole
string, in scan order.  A match can only start at a comma; after a
successful match the scan resumes at the end of the match (the trailing
`\s*` is greedy), and after a failed attempt, or at a non-comma character,
it advances one position.  Fueled as in `validTailF`.
-/
def findPairsF : Nat → List Char → List (List Char × List Char)
  | _, [] => []
  | 0, _ :: _ => []
  | n + 1, c :: r =>
    if c = ',' then
      match matchPairCore (r.dropWhile isPySpace) with
      | some (k, v, rest) => (k, v) :: findPairsF n (rest.dropWhile isPySpace)
      | none => findPairsF n r
    else findPairsF n r

/-- `findPairsF` with sufficient fuel. -/
def findPairs (s : List Char) : List (List Char × List Char) :=
  findPairsF s.length s

/-- Python `dict` assignment `d[k] = v`: replace the value of an existing
key in place, otherwise append the new binding. -/
def dinsert (m : List (List Char × List Char)) (k v : List Char) :
    List (List Char × List Char) :=
  match m with
  | [] => [(k, v)]
  | (k', v') :: t => if k' = k then (k, v) :: t else (k', v') :: dinsert t k v

/-- Python `dict.get`: the value bound to `k`, if any. -/
def dget (m : List (List Char × List Char)) (k : List Char) : Option (List Char) :=
  match m with
  | [] => none
  | (k', v') :: t => if k' = k then some v' else dget t k

/-- The message of the `ValueError` raised by `parse_challenge` on a
challenge that fails the whole-string validation. -/
def parseErrMsg : String :=
  "The challenge is not parseable as an RFC6750 OAuth2 challenge"

/--
`parse_challenge` (authentication_parameters.py, lines 84-109): validate the
whole challenge against the structure regex, raising `ValueError` if it does
not match; otherwise build a dict from the first pair (if the first-pair
regex matches) and then every `finditer` match of the repeating-pair regex,
later assignments overwriting earlier ones.
-/
def parse_challenge (challenge : String) : Except PyErr (List (List Char × List Char)) :=
  let s := challenge.data
  if validate s then
    let m0 :=
      match firstPair s with
      | some (k, v) => dinsert [] k v
      | none => []
    .ok ((findPairs s).foldl (fun m kv => dinsert m kv.1 kv.2) m0)
  else
    .error (.valueError parseErrMsg)

/-- Modelled from the spec: §7's error taxonomy, mapping each concrete
Python exception to its spec class.  The `AttributeError`s raised for a
malformed collaborator object and the `argument` module's validation error
are ArgumentError; the whole-string-validation `ValueError` of
`parse_challenge` is ParseError; every other `ValueError` (wrong status
code, missing header, missing `authorization_uri`) is ProtocolError; the
thumbprint/signature failures are AssertionError.  Exceptions outside the
taxonomy (`NameError`, `TypeError`) have no class. -/
def classify : PyErr → Option SpecErrorClass
  | .attributeError _ => some .argumentError
  | .argumentError _ => some .argumentError
  | .valueError m => if m = parseErrMsg then some .parseError else some .protocolError
  | .assertionError _ => some .assertionError
  | .nameError _ => none
  | .typeError _ => none

/-! ## Generic list lemmas used by the parser proofs -/

theorem lengthDropWhileLe (p : Char → Bool) (l : List Char) :
    (l.dropWhile p).length ≤ l.length := by
  induction l with
  | nil => exact Nat.le_refl _
  | cons x xs ih =>
    rw [List.dropWhile_cons]
    by_cases h : p x = true
    · rw [if_pos h]; exact Nat.le_succ_of_le ih
    · rw [if_neg h]

theorem dropWhileAppendAll {p : Char → Bool} :
    ∀ (xs l : List Char), xs.all p = true → (xs ++ l).dropWhile p = l.dropWhile p
  | [], _, _ => rfl
  | x :: xs, l, h => by
    rw [List.all_cons, Bool.and_eq_true] at h
    rw [List.cons_append, List.dropWhile_cons, if_pos h.1]
    exact dropWhileAppendAll xs l h.2

theorem dropWhileHeadFalse {p : Char → Bool} :
    ∀ (l : List Char), (∀ c, l.head? = some c → p c = false) → l.dropWhile p = l
  | [], _ => rfl
  | c :: r, h => by
    have hc : p c = false := h c rfl
    rw [List.dropWhile_cons, if_neg (by simp [hc])]

theorem takeWhileHeadFalse {p : Char → Bool} :
    ∀ (l : List Char), (∀ c, l.head? = some c → p c = false) → l.takeWhile p = []
  | [], _ => rfl
  | c :: r, h => by
    have hc : p c = false := h c rfl
    rw [List.takeWhile_cons, if_neg (by simp [hc])]

theorem takeWhileAppendEq {p : Char → Bool} :
    ∀ (xs r : List Char), xs.all p = true →
      (∀ c, r.head? = some c → p c = false) → (xs ++ r).takeWhile p = xs
  | [], r, _, hr => takeWhileHeadFalse r hr
  | x :: xs, r, h, hr => by
    rw [List.all_cons, Bool.and_eq_true] at h
    rw [List.cons_append, List.takeWhile_cons, if_pos h.1,
      takeWhileAppendEq xs r h.2 hr]

theorem dropWhileAppendEq {p : Char → Bool} (xs r : List Char)
    (hxs : xs.all p = true) (hr : ∀ c, r.head? = some c → p c = false) :
    (xs ++ r).dropWhile p = r := by
  rw [dropWhileAppendAll xs r hxs, dropWhileHeadFalse r hr]

/-! ## Well-formed challenge fragments and their rendering -/

/-- Whitespace component: every character matches `\s`. -/
def wsOk (l : List Char) : Bool := l.all isPySpace

/-- Grammar-valid key: non-empty, every character in `[^,\s="]`. -/
def keyOk (k : List Char) : Bool := !k.isEmpty && k.all isKeyChar

/-- Grammar-valid value: no `"` character. -/
def valOk (v : List Char) : Bool := v.all (fun c => c != '"')

/-- One `,\s*key="value"\s*` group of a rendered challenge: the whitespace
after the comma, the key, the value, and the whitespace after the closing
quote. -/
structure TailPair where
  wsB : List Char
  key : List Char
  val : List Char
  wsA : List Char
deriving DecidableEq

/-- Well-formedness of one tail group. -/
def tailPairOk (p : TailPair) : Bool :=
  wsOk p.wsB && keyOk p.key && valOk p.val && wsOk p.wsA

/-- Rendering of the repeated `(,\s*key="value"\s*)*` part of a challenge. -/
def renderTail : List TailPair → List Char
  | [] => []
  | p :: t =>
    ',' :: (p.wsB ++ (p.key ++ '=' :: '"' :: (p.val ++ '"' :: (p.wsA ++ renderTail t))))

/-- The characters of the literal `Bearer`. -/
def bearerChars : List Char := ['B', 'e', 'a', 'r', 'e', 'r']

/-- A fully rendered challenge
`\s* Bearer \s+ k1="v1" \s* (,\s* k="v" \s*)*`: leading whitespace `lw`, the
literal `Bearer`, the mandatory whitespace `sep1`, the first pair, its
trailing whitespace `ws1`, and the comma-separated tail groups. -/
def renderChallenge (lw sep1 k1 v1 ws1 : List Char) (ps : List TailPair) : List Char :=
  lw ++ (bearerChars ++ (sep1 ++ (k1 ++ '=' :: '"' :: (v1 ++ '"' :: (ws1 ++ renderTail ps)))))

theorem isKeyCharNotSpace {c : Char} (h : isKeyChar c = true) : isPySpace c = false := by
  by_contra hs
  rw [Bool.not_eq_false] at hs
  simp [isKeyChar, hs] at h

theorem wsNeComma {l : List Char} (h : wsOk l = true) : ∀ c ∈ l, c ≠ ',' := by
  intro c hc he
  subst he
  have := List.all_eq_true.mp h _ hc
  simp [isPySpace] at this

theorem keyNeComma {k : List Char} (h : k.all isKeyChar = true) : ∀ c ∈ k, c ≠ ',' := by
  intro c hc he
  subst he
  have := List.all_eq_true.mp h _ hc
  simp [isKeyChar] at this

/-! ## Behaviour of `matchPairCore` on well-formed fragments -/

theorem matchPairCoreRender (k v rest : List Char)
    (hk : keyOk k = true) (hv : valOk v = true) :
    matchPairCore (k ++ '=' :: '"' :: (v ++ '"' :: rest)) = some (k, v, rest) := by
  rw [keyOk, Bool.and_eq_true, Bool.not_eq_true'] at hk
  have hhead : ∀ c, ('=' :: '"' :: (v ++ '"' :: rest)).head? = some c →
      isKeyChar c = false := by
    intro c hc
    simp only [List.head?_cons, Option.some.injEq] at hc
    subst hc
    decide
  have hvhead : ∀ c, ('"' :: rest).head? = some c → (c != '"') = false := by
    intro c hc
    simp only [List.head?_cons, Option.some.injEq] at hc
    subst hc
    decide
  have htake := takeWhileAppendEq k _ hk.2 hhead
  have hdrop := dropWhileAppendEq k _ hk.2 hhead
  have hvtake := takeWhileAppendEq v ('"' :: rest) hv hvhead
  have hvdrop := dropWhileAppendEq v ('"' :: rest) hv hvhead
  simp only [matchPairCore, htake, hdrop, hk.1, hvtake, hvdrop]
  rfl

theorem matchPairCoreLength {l k v rest : List Char}
    (h : matchPairCore l = some (k, v, rest)) : rest.length + 3 ≤ l.length := by
  simp only [matchPairCore] at h
  split at h
  · exact absurd h (by simp)
  · split at h
    next r2 heq =>
      split at h
      next r3 heq2 =>
        simp only [Option.some.injEq, Prod.mk.injEq] at h
        obtain ⟨-, -, hr⟩ := h
        subst hr
        have h1 : (l.dropWhile isKeyChar).length ≤ l.length := lengthDropWhileLe _ _
        rw [heq] at h1
        have h2 : (r2.dropWhile (fun c => c != '"')).length ≤ r2.length :=
          lengthDropWhileLe _ _
        rw [heq2] at h2
        simp only [List.length_cons] at h1 h2
        omega
      · exact absurd h (by simp)
    · exact absurd h (by simp)

/-! ## Fuel independence of the scanners -/

theorem findPairsFNil (n : Nat) : findPairsF n [] = [] := by
  cases n <;> rfl

theorem validTailFNil (n : Nat) : validTailF n [] = true := by
  cases n <;> rfl

theorem findPairsFFuelIndep :
    ∀ (n m : Nat) (l : List Char), l.length ≤ n → l.length ≤ m →
      findPairsF n l = findPairsF m l := by
  intro n
  induction n with
  | zero =>
    intro m l hn _
    have : l = [] := List.length_eq_zero.mp (Nat.le_zero.mp hn)
    subst this
    rw [findPairsFNil, findPairsFNil]
  | succ n ih =>
    intro m l hn hm
    cases l with
    | nil => rw [findPairsFNil, findPairsFNil]
    | cons c r =>
      simp only [List.length_cons] at hn hm
      cases m with
      | zero => omega
      | succ m' =>
        simp only [findPairsF]
        by_cases hc : c = ','
        · rw [if_pos hc, if_pos hc]
          cases hmp : matchPairCore (r.dropWhile isPySpace) with
          | none => exact ih m' r (by omega) (by omega)
          | some kvr =>
            obtain ⟨k', v', rest⟩ := kvr
            have hlen := matchPairCoreLength hmp
            have hdw : (r.dropWhile isPySpace).length ≤ r.length := lengthDropWhileLe _ _
            have hdw2 : (rest.dropWhile isPySpace).length ≤ rest.length :=
              lengthDropWhileLe _ _
            show (k', v') :: findPairsF n (rest.dropWhile isPySpace)
              = (k', v') :: findPairsF m' (rest.dropWhile isPySpace)
            rw [ih m' (rest.dropWhile isPySpace) (by omega) (by omega)]
        · rw [if_neg hc, if_neg hc]
          exact ih m' r (by omega) (by omega)

theorem validTailFFuelIndep :
    ∀ (n m : Nat) (l : List Char), l.length ≤ n → l.length ≤ m →
      validTailF n l = validTailF m l := by
  intro n
  induction n with
  | zero =>
    intro m l hn _
    have : l = [] := List.length_eq_zero.mp (Nat.le_zero.mp hn)
    subst this
    rw [validTailFNil, validTailFNil]
  | succ n ih =>
    intro m l hn hm
    cases l with
    | nil => rw [validTailFNil, validTailFNil]
    | cons c r =>
      simp only [List.length_cons] at hn hm
      cases m with
      | zero => omega
      | succ m' =>
        simp only [validTailF]
        by_cases hc : c = ','
        · rw [if_pos hc, if_pos hc]
          cases hmp : matchPairCore (r.dropWhile isPySpace) with
          | none => rfl
          | some kvr =>
            obtain ⟨k', v', rest⟩ := kvr
            have hlen := matchPairCoreLength hmp
            have hdw : (r.dropWhile isPySpace).length ≤ r.length := lengthDropWhileLe _ _
            have hdw2 : (rest.dropWhile isPySpace).length ≤ rest.length :=
              lengthDropWhileLe _ _
            show validTailF n (rest.dropWhile isPySpace)
              = validTailF m' (rest.dropWhile isPySpace)
            exact ih m' (rest.dropWhile isPySpace) (by omega) (by omega)
        · rw [if_neg hc, if_neg hc]

/-! ## Step lemmas for the scanners -/

theorem findPairsConsNe (c : Char) (r : List Char) (h : c ≠ ',') :
    findPairs (c :: r) = findPairs r := by
  show findPairsF ((c :: r).length) (c :: r) = findPairsF r.length r
  simp only [List.length_cons, findPairsF]
  rw [if_neg h]

theorem findPairsComma (r k v rest : List Char)
    (h : matchPairCore (r.dropWhile isPySpace) = some (k, v, rest)) :
    findPairs (',' :: r) = (k, v) :: findPairs (rest.dropWhile isPySpace) := by
  show findPairsF ((',' :: r).length) (',' :: r) = _
  simp only [List.length_cons, findPairsF, if_pos rfl, h]
  have hlen := matchPairCoreLength h
  have hdw : (r.dropWhile isPySpace).length ≤ r.length := lengthDropWhileLe _ _
  have hdw2 : (rest.dropWhile isPySpace).length ≤ rest.length := lengthDropWhileLe _ _
  rw [findPairsFFuelIndep r.length (rest.dropWhile isPySpace).length
    (rest.dropWhile isPySpace) (by omega) (Nat.le_refl _)]
  rfl

theorem findPairsAppendNoComma :
    ∀ (xs r : List Char), (∀ c ∈ xs, c ≠ ',') → findPairs (xs ++ r) = findPairs r
  | [], _, _ => rfl
  | x :: xs, r, h => by
    rw [List.cons_append, findPairsConsNe x _ (h x (List.mem_cons_self x xs))]
    exact findPairsAppendNoComma xs r (fun c hc => h c (List.mem_cons_of_mem x hc))

theorem validTailComma (r k v rest : List Char)
    (h : matchPairCore (r.dropWhile isPySpace) = some (k, v, rest)) :
    validTail (',' :: r) = validTail (rest.dropWhile isPySpace) := by
  show validTailF ((',' :: r).length) (',' :: r) = _
  simp only [List.length_cons, validTailF, if_pos rfl, h]
  have hlen := matchPairCoreLength h
  have hdw : (r.dropWhile isPySpace).length ≤ r.length := lengthDropWhileLe _ _
  have hdw2 : (rest.dropWhile isPySpace).length ≤ rest.length := lengthDropWhileLe _ _
  rw [validTailFFuelIndep r.length (rest.dropWhile isPySpace).length
    (rest.dropWhile isPySpace) (by omega) (Nat.le_refl _)]
  rw [if_pos trivial]
  rfl

/-! ## The scanners on rendered challenges -/

theorem keyHeadNotSpace {k : List Char} (hk : keyOk k = true) (X : List Char) :
    ∀ c, (k ++ X).head? = some c → isPySpace c = false := by
  rw [keyOk, Bool.and_eq_true, Bool.not_eq_true'] at hk
  cases k with
  | nil => simp [List.isEmpty] at hk
  | cons kh kt =>
    intro c hc
    simp only [List.cons_append, List.head?_cons, Option.some.injEq] at hc
    subst hc
    have : isKeyChar kh = true := by
      have := hk.2
      rw [List.all_cons, Bool.and_eq_true] at this
      exact this.1
    exact isKeyCharNotSpace this

/-- Dropping whitespace from `ws ++ k ++ X` (with `k` a grammar key)
removes exactly `ws`. -/
theorem dropWhileWsKey (ws k X : List Char) (hws : wsOk ws = true)
    (hk : keyOk k = true) :
    (ws ++ (k ++ X)).dropWhile isPySpace = k ++ X :=
  dropWhileAppendEq ws (k ++ X) hws (keyHeadNotSpace hk X)

theorem dropWhileRenderTail (ps : List TailPair) :
    (renderTail ps).dropWhile isPySpace = renderTail ps := by
  cases ps with
  | nil => rfl
  | cons p t =>
    rw [renderTail, List.dropWhile_cons, if_neg (by decide)]

/-- Dropping whitespace from `ws ++ renderTail ps` removes exactly `ws`. -/
theorem dropWhileWsTail (ws : List Char) (ps : List TailPair) (hws : wsOk ws = true) :
    (ws ++ renderTail ps).dropWhile isPySpace = renderTail ps := by
  rw [dropWhileAppendAll ws _ hws, dropWhileRenderTail]

theorem validTailRenderTail :
    ∀ (ps : List TailPair), ps.all tailPairOk = true → validTail (renderTail ps) = true
  | [], _ => rfl
  | p :: t, h => by
    rw [List.all_cons, Bool.and_eq_true] at h
    obtain ⟨hp, ht⟩ := h
    rw [tailPairOk, Bool.and_eq_true, Bool.and_eq_true, Bool.and_eq_true] at hp
    obtain ⟨⟨⟨hwsB, hkey⟩, hval⟩, hwsA⟩ := hp
    rw [renderTail]
    have hmatch : matchPairCore ((p.wsB ++ (p.key ++ '=' :: '"' ::
        (p.val ++ '"' :: (p.wsA ++ renderTail t)))).dropWhile isPySpace)
        = some (p.key, p.val, p.wsA ++ renderTail t) := by
      rw [dropWhileWsKey p.wsB p.key _ hwsB hkey]
      exact matchPairCoreRender p.key p.val _ hkey hval
    rw [validTailComma _ _ _ _ hmatch, dropWhileWsTail p.wsA t hwsA]
    exact validTailRenderTail t ht

theorem findPairsRenderTail :
    ∀ (ps : List TailPair), ps.all tailPairOk = true →
      findPairs (renderTail ps) = ps.map (fun p => (p.key, p.val))
  | [], _ => rfl
  | p :: t, h => by
    rw [List.all_cons, Bool.and_eq_true] at h
    obtain ⟨hp, ht⟩ := h
    rw [tailPairOk, Bool.and_eq_true, Bool.and_eq_true, Bool.and_eq_true] at hp
    obtain ⟨⟨⟨hwsB, hkey⟩, hval⟩, hwsA⟩ := hp
    rw [renderTail]
    have hmatch : matchPairCore ((p.wsB ++ (p.key ++ '=' :: '"' ::
        (p.val ++ '"' :: (p.wsA ++ renderTail t)))).dropWhile isPySpace)
        = some (p.key, p.val, p.wsA ++ renderTail t) := by
      rw [dropWhileWsKey p.wsB p.key _ hwsB hkey]
      exact matchPairCoreRender p.key p.val _ hkey hval
    rw [findPairsComma _ _ _ _ hmatch, dropWhileWsTail p.wsA t hwsA,
      findPairsRenderTail t ht, List.map_cons]

/-- The `\s*Bearer\s+` prefix of a rendered challenge strips to the first
pair and everything after it. -/
theorem stripBearerRender (lw sep1 k1 v1 ws1 : List Char) (ps : List TailPair)
    (hlw : wsOk lw = true) (hsep : wsOk sep1 = true) (hsepne : sep1 ≠ [])
    (hk1 : keyOk k1 = true) :
    stripBearer ((renderChallenge lw sep1 k1 v1 ws1 ps).dropWhile isPySpace)
      = some (k1 ++ '=' :: '"' :: (v1 ++ '"' :: (ws1 ++ renderTail ps))) := by
  rw [renderChallenge, dropWhileAppendAll lw _ hlw]
  rw [dropWhileHeadFalse _ (by intro c hc; simp [bearerChars] at hc; subst hc; decide)]
  cases sep1 with
  | nil => exact absurd rfl hsepne
  | cons s0 s1 =>
    have hs0 : isPySpace s0 = true := by
      rw [wsOk, List.all_cons, Bool.and_eq_true] at hsep
      exact hsep.1
    have hs1 : wsOk s1 = true := by
      rw [wsOk, List.all_cons, Bool.and_eq_true] at hsep
      exact hsep.2
    show stripBearer ('B' :: 'e' :: 'a' :: 'r' :: 'e' :: 'r' ::
      (s0 :: (s1 ++ (k1 ++ '=' :: '"' :: (v1 ++ '"' :: (ws1 ++ renderTail ps)))))) = _
    rw [stripBearer]
    rw [if_pos hs0, dropWhileWsKey s1 k1 _ hs1 hk1]

/-- The first-pair regex on a rendered challenge extracts the first pair. -/
theorem firstPairRender (lw sep1 k1 v1 ws1 : List Char) (ps : List TailPair)
    (hlw : wsOk lw = true) (hsep : wsOk sep1 = true) (hsepne : sep1 ≠ [])
    (hk1 : keyOk k1 = true) (hv1 : valOk v1 = true) :
    firstPair (renderChallenge lw sep1 k1 v1 ws1 ps) = some (k1, v1) := by
  have hstrip := stripBearerRender lw sep1 k1 v1 ws1 ps hlw hsep hsepne hk1
  have hmatch := matchPairCoreRender k1 v1 (ws1 ++ renderTail ps) hk1 hv1
  simp only [firstPair, hstrip, hmatch]

/-- The validation regex accepts every rendered challenge. -/
theorem validateRender (lw sep1 k1 v1 ws1 : List Char) (ps : List TailPair)
    (hlw : wsOk lw = true) (hsep : wsOk sep1 = true) (hsepne : sep1 ≠ [])
    (hk1 : keyOk k1 = true) (hv1 : valOk v1 = true) (hws1 : wsOk ws1 = true)
    (hps : ps.all tailPairOk = true) :
    validate (renderChallenge lw sep1 k1 v1 ws1 ps) = true := by
  have hstrip := stripBearerRender lw sep1 k1 v1 ws1 ps hlw hsep hsepne hk1
  have hmatch := matchPairCoreRender k1 v1 (ws1 ++ renderTail ps) hk1 hv1
  simp only [validate, hstrip, hmatch]
  show validTailF (renderChallenge lw sep1 k1 v1 ws1 ps).length
    ((ws1 ++ renderTail ps).dropWhile isPySpace) = true
  rw [dropWhileWsTail ws1 ps hws1]
  have hle : (renderTail ps).length ≤ (renderChallenge lw sep1 k1 v1 ws1 ps).length := by
    simp only [renderChallenge, bearerChars, List.length_append, List.length_cons]
    omega
  rw [validTailFFuelIndep _ (renderTail ps).length (renderTail ps) hle (Nat.le_refl _)]
  exact validTailRenderTail ps hps

theorem bearerNeComma : ∀ c ∈ bearerChars, c ≠ ',' := by decide

/-- The repeating-pair `finditer` scan on a rendered challenge whose first
value contains no comma extracts exactly the tail pairs: every character
before the first separating comma is a non-comma, so the scan's first match
is at that separator. -/
theorem findPairsRender (lw sep1 k1 v1 ws1 : List Char) (ps : List TailPair)
    (hlw : wsOk lw = true) (hsep : wsOk sep1 = true)
    (hk1 : keyOk k1 = true) (hv1c : v1.all (fun c => c != ',') = true)
    (hws1 : wsOk ws1 = true) (hps : ps.all tailPairOk = true) :
    findPairs (renderChallenge lw sep1 k1 v1 ws1 ps)
      = ps.map (fun p => (p.key, p.val)) := by
  have hsplit : renderChallenge lw sep1 k1 v1 ws1 ps
      = (lw ++ (bearerChars ++ (sep1 ++ (k1 ++ '=' :: '"' :: (v1 ++ '"' :: ws1)))))
        ++ renderTail ps := by
    simp only [renderChallenge, List.append_assoc, List.cons_append, List.nil_append]
  rw [hsplit]
  rw [findPairsAppendNoComma _ _ ?nc, findPairsRenderTail ps hps]
  case nc =>
    intro c hc he
    subst he
    rw [List.mem_append] at hc
    rcases hc with hc | hc
    · exact wsNeComma hlw _ hc rfl
    rw [List.mem_append] at hc
    rcases hc with hc | hc
    · exact bearerNeComma _ hc rfl
    rw [List.mem_append] at hc
    rcases hc with hc | hc
    · exact wsNeComma hsep _ hc rfl
    rw [List.mem_append] at hc
    rcases hc with hc | hc
    · exact keyNeComma (by
        rw [keyOk, Bool.and_eq_true] at hk1
        exact hk1.2) _ hc rfl
    rw [List.mem_cons] at hc
    rcases hc with hc | hc
    · exact absurd hc (by decide)
    rw [List.mem_cons] at hc
    rcases hc with hc | hc
    · exact absurd hc (by decide)
    rw [List.mem_append] at hc
    rcases hc with hc | hc
    · have := List.all_eq_true.mp hv1c _ hc
      simp at this
    rw [List.mem_cons] at hc
    rcases hc with hc | hc
    · exact absurd hc (by decide)
    · exact wsNeComma hws1 _ hc rfl

/-! ## Python dict semantics: last write wins -/

/-- The value the claim predicts for key `q`: the value of the last
occurrence of `q` in the pair list, if any. -/
def lastLookup : List (List Char × List Char) → List Char → Option (List Char)
  | [], _ => none
  | (k, v) :: t, q =>
    match lastLookup t q with
    | some w => some w
    | none => if k = q then some v else none

/-- Left-biased choice on options. -/
def oor (a b : Option (List Char)) : Option (List Char) :=
  match a with
  | some w => some w
  | none => b

theorem dgetDinsert (m : List (List Char × List Char)) (k v q : List Char) :
    dget (dinsert m k v) q = if k = q then some v else dget m q := by
  induction m with
  | nil => by_cases h : k = q <;> simp [dinsert, dget, h]
  | cons hd t ih =>
    obtain ⟨a, b⟩ := hd
    by_cases hak : a = k
    · subst hak
      by_cases haq : a = q <;> simp [dinsert, dget, haq]
    · by_cases haq : a = q
      · subst haq
        have hkq : ¬ k = a := fun he => hak he.symm
        simp [dinsert, dget, hak, hkq]
      · simp [dinsert, dget, hak, haq, ih]

theorem dgetFoldl (ps : List (List Char × List Char)) :
    ∀ (m : List (List Char × List Char)) (q : List Char),
      dget (ps.foldl (fun m kv => dinsert m kv.1 kv.2) m) q
        = oor (lastLookup ps q) (dget m q) := by
  induction ps with
  | nil => intro m q; rfl
  | cons hd t ih =>
    intro m q
    obtain ⟨k, v⟩ := hd
    rw [List.foldl_cons]
    rw [ih (dinsert m k v) q, dgetDinsert m k v q]
    show oor (lastLookup t q) _ = oor (lastLookup ((k, v) :: t) q) (dget m q)
    cases hll : lastLookup t q with
    | some w => simp [lastLookup, oor, hll]
    | none =>
      by_cases hkq : k = q <;> simp [lastLookup, oor, hll, hkq]

deriving instance DecidableEq for Except

theorem dataMk (l : List Char) : (String.mk l).data = l := rfl

/-! ## Claim C1 -/

/--
C1 (amended).  For every well-formed RFC6750 Bearer challenge
`Bearer k1="v1", k2="v2", ...` — any amount of whitespace around `Bearer`,
the pairs and the commas — **whose first pair's value contains no comma**,
`parse_challenge` returns a mapping whose entries are exactly the rendered
pairs, and when a key occurs more than once the value of the last
(rightmost) occurrence is kept (last-write-wins, left-to-right scan order).
The mapping is characterised extensionally: `dget` of the result agrees
with `lastLookup` of the pair list on every key.  (The restriction on the
first value is forced by `parse_challenge_c1_counterexample`: the
`finditer` extraction rescans the raw string, and a comma inside the first
pair's value can start a spurious match that swallows a real pair.
Subsequent pairs' values are consumed by their own matches, so they may
contain commas freely.)
-/
theorem parse_challenge_wellformed_lww
    (lw sep1 k1 v1 ws1 : List Char) (ps : List TailPair)
    (hlw : wsOk lw = true) (hsep : wsOk sep1 = true) (hsepne : sep1 ≠ [])
    (hk1 : keyOk k1 = true) (hv1 : valOk v1 = true)
    (hv1c : v1.all (fun c => c != ',') = true)
    (hws1 : wsOk ws1 = true) (hps : ps.all tailPairOk = true) :
    ∃ m, parse_challenge (String.mk (renderChallenge lw sep1 k1 v1 ws1 ps)) = .ok m
      ∧ ∀ q, dget m q
          = lastLookup ((k1, v1) :: ps.map (fun p => (p.key, p.val))) q := by
  have hval := validateRender lw sep1 k1 v1 ws1 ps hlw hsep hsepne hk1 hv1 hws1 hps
  have hfp := firstPairRender lw sep1 k1 v1 ws1 ps hlw hsep hsepne hk1 hv1
  have hfps := findPairsRender lw sep1 k1 v1 ws1 ps hlw hsep hk1 hv1c hws1 hps
  refine ⟨((k1, v1) :: ps.map fun p => (p.key, p.val)).foldl
    (fun m kv => dinsert m kv.1 kv.2) [], ?_, ?_⟩
  · simp only [parse_challenge, dataMk, hval, hfp, hfps, if_true]
    rw [List.foldl_cons]
  · intro q
    rw [dgetFoldl]
    show oor _ (dget [] q) = _
    cases lastLookup ((k1, v1) :: ps.map fun p => (p.key, p.val)) q <;> rfl

/--
Witness for C1: the challenge `Bearer a="1", b="2",a="3"` (rendered with
explicit whitespace components) parses to a mapping with `a ↦ 3`
(last write wins), `b ↦ 2`, and no other keys.
-/
theorem parse_challenge_wellformed_lww_witness :
    ∃ m, parse_challenge (String.mk (renderChallenge [] [' '] ['a'] ['1'] []
        [⟨[' '], ['b'], ['2'], []⟩, ⟨[], ['a'], ['3'], []⟩])) = .ok m
      ∧ dget m ['a'] = some ['3'] ∧ dget m ['b'] = some ['2']
      ∧ dget m ['c'] = none := by
  obtain ⟨m, hm, hq⟩ := parse_challenge_wellformed_lww [] [' '] ['a'] ['1'] []
    [⟨[' '], ['b'], ['2'], []⟩, ⟨[], ['a'], ['3'], []⟩]
    (by decide) (by decide) (by decide) (by decide) (by decide) (by decide)
    (by decide) (by decide)
  refine ⟨m, hm, ?_, ?_, ?_⟩
  · rw [hq ['a']]; decide
  · rw [hq ['b']]; decide
  · rw [hq ['c']]; decide

/--
Counterexample to C1 as stated.  `Bearer a="b,c=",d="e"` is a well-formed
challenge (it passes the whole-string validation, and it is the rendering
of the pairs `a ↦ b,c=` and `d ↦ e`), yet `parse_challenge` returns the
mapping `a ↦ "b,c=", c ↦ ",d="`: the claimed entry for key `d` is absent
and a spurious key `c` appears, because the repeating-pair `finditer` scan
restarts inside the first pair's value at the embedded comma.
-/
theorem parse_challenge_c1_counterexample :
    ("Bearer a=\"b,c=\",d=\"e\"").data
      = renderChallenge [] [' '] ['a'] ['b', ',', 'c', '='] [] [⟨[], ['d'], ['e'], []⟩]
    ∧ validate ("Bearer a=\"b,c=\",d=\"e\"").data = true
    ∧ parse_challenge "Bearer a=\"b,c=\",d=\"e\""
        = .ok [(['a'], ['b', ',', 'c', '=']), (['c'], [',', 'd', '='])]
    ∧ dget [(['a'], ['b', ',', 'c', '=']), (['c'], [',', 'd', '='])] ['d'] = none
    ∧ dget [(['a'], ['b', ',', 'c', '=']), (['c'], [',', 'd', '='])] ['c']
        = some [',', 'd', '='] := by
  refine ⟨by decide, by decide, by decide, by decide, by decide⟩

/-! ## Claim C5 -/

/--
C5.  Every input string that fails the whole-challenge structure regex makes
`parse_challenge` fail with the parse `ValueError` (classified as ParseError
in the spec's §7 taxonomy); the whole-string validation is performed before
any pair extraction, so no parameter mapping — not even a partial one — is
produced from such a string.
-/
theorem parse_challenge_invalid_rejected (s : String)
    (h : validate s.data = false) :
    parse_challenge s = .error (.valueError parseErrMsg)
    ∧ classify (.valueError parseErrMsg) = some .parseError := by
  constructor
  · simp [parse_challenge, h]
  · decide

/-- Witness for C5: `parse_challenge "not a challenge"` fails with the
parse error. -/
theorem parse_challenge_invalid_rejected_witness :
    parse_challenge "not a challenge" = .error (.valueError parseErrMsg) :=
  (parse_challenge_invalid_rejected "not a challenge" (by decide)).1

/-! ## AuthenticationParameters and the derived operations -/

/-- The parameter-name constants of authentication_parameters.py. -/
def AUTHORIZATION_URI : String := "authorization_uri"

def RESOURCE : String := "resource"

def WWW_AUTHENTICATE_HEADER : String := "www-authenticate"

/-- The `AuthenticationParameters` value object: `authorization_uri` and an
optional `resource` (Python passes `None` when the parameter is absent). -/
structure AuthenticationParameters where
  authorization_uri : String
  resource : Option String
deriving DecidableEq

/-- Modelled from the spec: `argument.validate_string_param` (the `argument`
module is not under src/).  Spec §4.1: a non-empty challenge is required;
an empty one fails with ArgumentError, distinct from parse failures. -/
def validate_string_param (s : String) : Except PyErr Unit :=
  if s = "" then .error (.argumentError "challenge") else .ok ()

def authUriMissingMsg : String :=
  "Could not find 'authorization_uri' in challenge header."

/--
`create_authentication_parameters_from_header` (lines 111-122): validate the
challenge argument, parse it, require a truthy (present and non-empty)
`authorization_uri`, read `resource` if present (`dict.get` returns `None`
otherwise, which is not an error), and construct the value object.
The sequential statements of the source are written as nested matches.
-/
def create_authentication_parameters_from_header (challenge : String) :
    Except PyErr AuthenticationParameters :=
  match validate_string_param challenge with
  | .error e => .error e
  | .ok _ =>
    match parse_challenge challenge with
    | .error e => .error e
    | .ok m =>
      match dget m AUTHORIZATION_URI.data with
      | none => .error (.valueError authUriMissingMsg)
      | some a =>
        if a = [] then .error (.valueError authUriMissingMsg)
        else .ok ⟨String.mk a, (dget m RESOURCE.data).map String.mk⟩

/-- A `requests` response as consumed by the source: a `status_code`
attribute and a `headers` mapping.  `none` models a missing attribute; the
source's truthiness checks additionally treat a `0` status code and an
empty header mapping as missing. -/
structure Response where
  status_code : Option Int
  headers : Option (List (String × String))
deriving DecidableEq

/-- Python `dict.get` on the header mapping: exact (case-sensitive) key
lookup. -/
def headersGet (hs : List (String × String)) (k : String) : Option String :=
  match hs with
  | [] => none
  | (k', v) :: t => if k' = k then some v else headersGet t k

/-- Modelled from the spec: `constants.HttpError.UNAUTHORIZED` (the
constants module is not under src/); §4.1 requires status code 401. -/
def HttpError_UNAUTHORIZED : Int := 401

def statusFieldMsg : String :=
  "The response parameter does not have the expected HTTP status_code field"

def headersFieldMsg : String := "There were no headers found in the response."

def statusCodeMsg (c : Int) : String :=
  "The response status code does not correspond to an OAuth challenge.  "
    ++ "The statusCode is expected to be 401 but is: " ++ toString c

def noChallengeMsg : String :=
  "The response does not contain a WWW-Authenticate header that can be "
    ++ "used to determine the authority_uri and resource."

/--
`create_authentication_parameters_from_response` (lines 124-144): require a
truthy `status_code` and a truthy `headers` mapping (`AttributeError`
otherwise), require status 401 (`ValueError` citing the actual code
otherwise), require a truthy `www-authenticate` header (`ValueError`
otherwise), and delegate the header value to
`create_authentication_parameters_from_header`.  The source's initial
`if not response` check (a `None` argument) is outside this model, which
always receives a response object.
-/
def create_authentication_parameters_from_response (r : Response) :
    Except PyErr AuthenticationParameters :=
  match r.status_code with
  | none => .error (.attributeError statusFieldMsg)
  | some c =>
    if c = 0 then .error (.attributeError statusFieldMsg)
    else
      match r.headers with
      | none => .error (.attributeError headersFieldMsg)
      | some hs =>
        if hs = [] then .error (.attributeError headersFieldMsg)
        else if c ≠ HttpError_UNAUTHORIZED then .error (.valueError (statusCodeMsg c))
        else
          match headersGet hs WWW_AUTHENTICATE_HEADER with
          | none => .error (.valueError noChallengeMsg)
          | some ch =>
            if ch = "" then .error (.valueError noChallengeMsg)
            else create_authentication_parameters_from_header ch

/-- The `url` argument of `create_authentication_parameters_from_url`:
either a plain string, or an object; for an object the source checks the
`geturl` attribute in `validate_url_object` and then calls `get_url()`,
so both capabilities are tracked. -/
inductive UrlParam where
  | str (s : String)
  | obj (hasGeturl : Bool) (hasGetUrl : Bool) (u : String)
deriving DecidableEq

/-- `validate_url_object` (lines 146-148): a truthy object exposing
`geturl` is required. -/
def validate_url_object (hasGeturl : Bool) : Except PyErr Unit :=
  if hasGeturl then .ok ()
  else .error (.attributeError "Parameter is of wrong type: url")

/-- The challenge-URL computation of lines 154-158: a string is used as is;
an object is validated and then `url.get_url()` is called — an
`AttributeError` if the object has no such method (note the source checks
`geturl` but calls `get_url`). -/
def resolveChallengeUrl : UrlParam → Except PyErr String
  | .str s => .ok s
  | .obj hasGeturl hasGetUrl u =>
    match validate_url_object hasGeturl with
    | .error e => .error e
    | .ok _ =>
      if hasGetUrl then .ok u
      else .error (.attributeError "get_url")

/--
`create_authentication_parameters_from_url` (lines 150-186), for a valid
callback.  The HTTP collaborator is passed as the function `httpGet`
(an exception from the GET is its `.error` case).  The result lists the
callback invocations in order: the outer `try` turns any failure of the
URL resolution into `callback(exp, None)`; the GET and the response
parsing each have their own `try/except` that also ends in
`callback(exp, None)` followed by `return`; otherwise
`callback(None, parameters)` runs.  Logging and
`util.create_request_options` are purely observational per spec §6 and are
not modelled; the callback itself is assumed not to raise.
-/
def create_authentication_parameters_from_url (url : UrlParam)
    (httpGet : String → Except PyErr Response) :
    List (Option PyErr × Option AuthenticationParameters) :=
  match resolveChallengeUrl url with
  | .error e => [(some e, none)]
  | .ok challenge_url =>
    match httpGet challenge_url with
    | .error e => [(some e, none)]
    | .ok response =>
      match create_authentication_parameters_from_response response with
      | .error e => [(some e, none)]
      | .ok parameters => [(none, some parameters)]

/-! ## Claim C6 -/

/--
C6.  Every `AuthenticationParameters` returned by
`create_authentication_parameters_from_header` has a non-empty
`authorization_uri`.  Moreover, for any non-empty challenge whose parsed
mapping lacks the key `authorization_uri` — or maps it to the empty
value — the operation fails with the `ValueError` and constructs nothing,
while a present non-empty `authorization_uri` yields the value object with
`resource` taken from the mapping if present and absent (not an error)
otherwise.
-/
theorem from_header_requires_authorization_uri (ch : String) :
    (∀ p, create_authentication_parameters_from_header ch = .ok p →
      p.authorization_uri ≠ "")
    ∧ (∀ m, parse_challenge ch = .ok m → ch ≠ "" →
        (((dget m AUTHORIZATION_URI.data = none
            ∨ dget m AUTHORIZATION_URI.data = some []) →
          create_authentication_parameters_from_header ch
            = .error (.valueError authUriMissingMsg))
        ∧ (∀ a, dget m AUTHORIZATION_URI.data = some a → a ≠ [] →
            create_authentication_parameters_from_header ch
              = .ok ⟨String.mk a, (dget m RESOURCE.data).map String.mk⟩))) := by
  constructor
  · intro p hp
    by_cases hch : ch = ""
    · simp [create_authentication_parameters_from_header, validate_string_param,
        hch] at hp
    · cases hm : parse_challenge ch with
      | error e =>
        simp [create_authentication_parameters_from_header, validate_string_param,
          hch, hm] at hp
      | ok m =>
        cases ha : dget m AUTHORIZATION_URI.data with
        | none =>
          simp [create_authentication_parameters_from_header, validate_string_param,
            hch, hm, ha] at hp
        | some a =>
          by_cases hae : a = []
          · simp [create_authentication_parameters_from_header, validate_string_param,
              hch, hm, ha, hae] at hp
          · simp [create_authentication_parameters_from_header, validate_string_param,
              hch, hm, ha, hae] at hp
            intro he
            apply hae
            have hdata := congrArg String.data (hp ▸ he)
            simpa using hdata
  · intro m hm hch
    constructor
    · intro ha
      rcases ha with ha | ha
      · simp [create_authentication_parameters_from_header, validate_string_param,
          hch, hm, ha]
      · simp [create_authentication_parameters_from_header, validate_string_param,
          hch, hm, ha]
    · intro a ha hae
      simp [create_authentication_parameters_from_header, validate_string_param,
        hch, hm, ha, hae]

/-- Witness for C6: a challenge carrying only `authorization_uri` parses to
an `AuthenticationParameters` with that URI and no resource. -/
theorem from_header_requires_authorization_uri_witness :
    create_authentication_parameters_from_header
        "Bearer authorization_uri=\"https://x\""
      = .ok ⟨"https://x", none⟩ := by
  have h := ((from_header_requires_authorization_uri
      "Bearer authorization_uri=\"https://x\"").2
    [("authorization_uri".data, "https://x".data)] (by decide) (by decide)).2
    "https://x".data (by decide) (by decide)
  exact h.trans (by decide)

/-! ## Claim C8 -/

/--
C8.  `create_authentication_parameters_from_response` fails with an
`AttributeError` — the spec §7 classifies the malformed-collaborator errors
as ArgumentError, distinct from the protocol `ValueError`s — when the
response lacks a (truthy) status code or a (truthy) header mapping; fails
with a `ValueError` whose message cites the actual status code for every
status other than 401; fails with a `ValueError` when the status is 401 but
no non-empty `WWW-Authenticate` header is present; and only a 401 response
with that header is delegated to the header-parsing operation.
-/
theorem from_response_checks (r : Response) :
    ((r.status_code = none ∨ r.status_code = some 0 ∨ r.headers = none
        ∨ r.headers = some []) →
      ∃ msg, create_authentication_parameters_from_response r
          = .error (.attributeError msg)
        ∧ classify (.attributeError msg) = some .argumentError)
    ∧ (∀ c hs, r.status_code = some c → c ≠ 0 → r.headers = some hs → hs ≠ [] →
        c ≠ 401 →
        create_authentication_parameters_from_response r
          = .error (.valueError (statusCodeMsg c))
        ∧ (toString c).data <:+ (statusCodeMsg c).data)
    ∧ (∀ hs, r.status_code = some 401 → r.headers = some hs → hs ≠ [] →
        (headersGet hs WWW_AUTHENTICATE_HEADER = none
          ∨ headersGet hs WWW_AUTHENTICATE_HEADER = some "") →
        create_authentication_parameters_from_response r
          = .error (.valueError noChallengeMsg))
    ∧ (∀ hs ch, r.status_code = some 401 → r.headers = some hs → hs ≠ [] →
        headersGet hs WWW_AUTHENTICATE_HEADER = some ch → ch ≠ "" →
        create_authentication_parameters_from_response r
          = create_authentication_parameters_from_header ch) := by
  obtain ⟨sc, hd⟩ := r
  refine ⟨?_, ?_, ?_, ?_⟩
  · intro hmiss
    rcases hmiss with hsc | hsc | hhd | hhd
    · cases hsc
      exact ⟨statusFieldMsg, rfl, by decide⟩
    · cases hsc
      exact ⟨statusFieldMsg, rfl, by decide⟩
    · cases hhd
      cases sc with
      | none => exact ⟨statusFieldMsg, rfl, by decide⟩
      | some c =>
        by_cases hc : c = 0
        · subst hc
          exact ⟨statusFieldMsg, rfl, by decide⟩
        · refine ⟨headersFieldMsg, ?_, by decide⟩
          simp [create_authentication_parameters_from_response, hc]
    · cases hhd
      cases sc with
      | none => exact ⟨statusFieldMsg, rfl, by decide⟩
      | some c =>
        by_cases hc : c = 0
        · subst hc
          exact ⟨statusFieldMsg, rfl, by decide⟩
        · refine ⟨headersFieldMsg, ?_, by decide⟩
          simp [create_authentication_parameters_from_response, hc]
  · intro c hs hsc hc0 hhd hhs hc401
    cases hsc
    cases hhd
    constructor
    · simp [create_authentication_parameters_from_response, hc0, hhs, hc401,
        HttpError_UNAUTHORIZED]
    · rw [statusCodeMsg, String.data_append]
      exact List.suffix_append _ _
  · intro hs hsc hhd hhs hget
    cases hsc
    cases hhd
    rcases hget with hget | hget <;>
      simp [create_authentication_parameters_from_response, hhs, hget,
        HttpError_UNAUTHORIZED]
  · intro hs ch hsc hhd hhs hget hch
    cases hsc
    cases hhd
    simp [create_authentication_parameters_from_response, hhs, hget, hch,
      HttpError_UNAUTHORIZED]

/-- Witness for C8: a 200 response fails with the `ValueError` citing 200. -/
theorem from_response_checks_witness :
    create_authentication_parameters_from_response ⟨some 200, some [("a", "b")]⟩
      = .error (.valueError (statusCodeMsg 200)) :=
  ((from_response_checks ⟨some 200, some [("a", "b")]⟩).2.1 200 [("a", "b")]
    rfl (by decide) rfl (by decide) (by decide)).1

/-! ## Claim C10 -/

theorem headersGetNone (hs : List (String × String)) (k : String)
    (h : ∀ p ∈ hs, p.1 ≠ k) : headersGet hs k = none := by
  induction hs with
  | nil => rfl
  | cons p t ih =>
    rw [headersGet]
    rw [if_neg (h p (List.mem_cons_self p t))]
    exact ih (fun q hq => h q (List.mem_cons_of_mem p hq))

/--
C10.  The challenge lookup uses a case-sensitive `dict.get` with the exact
lowercase key `www-authenticate`: a 401 response whose header mapping
stores the challenge only under the differently-cased key
`WWW-Authenticate` (or under any keys other than the exact lowercase one)
fails with the missing-`WWW-Authenticate` `ValueError` instead of parsing
the challenge, while the exact lowercase key is delegated to the
header-parsing operation.
-/
theorem from_response_header_lookup_case_sensitive (ch : String) (hch : ch ≠ "") :
    create_authentication_parameters_from_response
        ⟨some 401, some [("WWW-Authenticate", ch)]⟩
      = .error (.valueError noChallengeMsg)
    ∧ (∀ hs : List (String × String), hs ≠ [] →
        (∀ p ∈ hs, p.1 ≠ WWW_AUTHENTICATE_HEADER) →
        create_authentication_parameters_from_response ⟨some 401, some hs⟩
          = .error (.valueError noChallengeMsg))
    ∧ create_authentication_parameters_from_response
        ⟨some 401, some [(WWW_AUTHENTICATE_HEADER, ch)]⟩
      = create_authentication_parameters_from_header ch := by
  refine ⟨?_, ?_, ?_⟩
  · have hget : headersGet [("WWW-Authenticate", ch)] WWW_AUTHENTICATE_HEADER
        = none := by
      rw [headersGet, if_neg (by decide)]
      rfl
    simp [create_authentication_parameters_from_response, hget,
      HttpError_UNAUTHORIZED]
  · intro hs hhs hk
    have hget := headersGetNone hs WWW_AUTHENTICATE_HEADER hk
    simp [create_authentication_parameters_from_response, hhs, hget,
      HttpError_UNAUTHORIZED]
  · have hget : headersGet [(WWW_AUTHENTICATE_HEADER, ch)] WWW_AUTHENTICATE_HEADER
        = some ch := by
      rw [headersGet, if_pos rfl]
    simp [create_authentication_parameters_from_response, hget, hch,
      HttpError_UNAUTHORIZED]

/-- Witness for C10: with the challenge stored only under
`WWW-Authenticate`, a 401 response is rejected. -/
theorem from_response_header_lookup_witness :
    create_authentication_parameters_from_response
        ⟨some 401, some [("WWW-Authenticate", "Bearer x=\"y\"")]⟩
      = .error (.valueError noChallengeMsg) :=
  (from_response_header_lookup_case_sensitive "Bearer x=\"y\"" (by decide)).1

/-! ## Claim C9 -/

/--
C9.  For every invocation of `create_authentication_parameters_from_url`
with a valid callback, the callback is invoked exactly once — either with
an error and no result, or with no error and an `AuthenticationParameters`
result, never both and never neither — whatever the URL argument and
whatever the outcome of the HTTP GET; every exception raised while
performing the GET or while parsing the response is delivered through the
callback (the model's invocation list is total: no exception propagates).
-/
theorem from_url_callback_exactly_once (url : UrlParam)
    (httpGet : String → Except PyErr Response) :
    (∃ e, create_authentication_parameters_from_url url httpGet = [(some e, none)])
    ∨ (∃ p, create_authentication_parameters_from_url url httpGet
        = [(none, some p)]) := by
  cases hres : resolveChallengeUrl url with
  | error e =>
    refine Or.inl ⟨e, ?_⟩
    simp [create_authentication_parameters_from_url, hres]
  | ok challenge_url =>
    cases hget : httpGet challenge_url with
    | error e =>
      refine Or.inl ⟨e, ?_⟩
      simp [create_authentication_parameters_from_url, hres, hget]
    | ok response =>
      cases hparse : create_authentication_parameters_from_response response with
      | error e =>
        refine Or.inl ⟨e, ?_⟩
        simp [create_authentication_parameters_from_url, hres, hget, hparse]
      | ok parameters =>
        refine Or.inr ⟨parameters, ?_⟩
        simp [create_authentication_parameters_from_url, hres, hget, hparse]

/-! ## The self-signed JWT builder (self_signed_jwt.py) -/

/-- The character class `[a-f\d]` of `ThumbprintRegEx = "^[a-f\d]*$"`.
Python's `\d` is Unicode-aware; the model restricts it to the ASCII digits. -/
def isHexCharPy (c : Char) : Bool :=
  ('a' ≤ c && c ≤ 'f') || c.isDigit

/--
`re.search("^[a-f\d]*$", s)` as a Boolean.  Without MULTILINE, `^` matches
only at position 0, and `$` matches at the end of the string **or just
before a newline at the end of the string**; so the regex accepts a string
of class characters optionally followed by one final newline.
-/
def pyHexLineMatch (s : List Char) : Bool :=
  s.all isHexCharPy
    || (s.getLast? = some '\n' && s.dropLast.all isHexCharPy)

def thumbprintErrMsg : String := "The thumbprint does not match a known format"

/--
`_raise_on_invalid_thumbprint` (lines 92-96): the canonical thumbprint's
length must be one of `[128/8*2, 160/8*2]` and the string must match
`ThumbprintRegEx`.  (In Python 3 the true division makes the sizes the
floats `32.0` and `40.0`; an integer length compares equal to them, so the
admissible lengths are 32 and 40.)  The raised object is
`self._log.create_error(msg)`; the log module is not under src/, so the
error type is modelled from the spec as AssertionError.
-/
def raise_on_invalid_thumbprint (t : List Char) : Except PyErr Unit :=
  if (t.length = 32 || t.length = 40) && pyHexLineMatch t then .ok ()
  else .error (.assertionError thumbprintErrMsg)

/-- The canonicalisation of `_reduce_thumbprint` (line 106):
`thumbprint.lower().replace(' ', '').replace(':', '')`.  The two sequential
removals equal one filter; `Char.toLower` is the ASCII model of
`str.lower`. -/
def canonicalThumbprint (t : String) : List Char :=
  (t.data.map Char.toLower).filter (fun c => c != ' ' && c != ':')

/-- `_reduce_thumbprint` (lines 104-108): canonicalise, validate, return the
canonical form. -/
def reduce_thumbprint (t : String) : Except PyErr (List Char) :=
  match raise_on_invalid_thumbprint (canonicalThumbprint t) with
  | .error e => .error e
  | .ok _ => .ok (canonicalThumbprint t)

/-- The acceptance condition of the thumbprint check, written out at the
Prop level: length exactly 32 or 40, and every character a hex digit
`[a-f0-9]` — except that the Python `$` also admits one trailing
newline. -/
def specThumbprintOk (s : List Char) : Prop :=
  (s.length = 32 ∨ s.length = 40)
    ∧ ((∀ c ∈ s, isHexCharPy c = true)
      ∨ (s.getLast? = some '\n' ∧ ∀ c ∈ s.dropLast, isHexCharPy c = true))

instance (s : List Char) : Decidable (specThumbprintOk s) := by
  unfold specThumbprintOk
  infer_instance

/-! ## Claim C2 -/

theorem raise_on_invalid_thumbprint_iff (s : List Char) :
    raise_on_invalid_thumbprint s = .ok () ↔ specThumbprintOk s := by
  by_cases h : specThumbprintOk s
  · have hb : ((s.length = 32 || s.length = 40) && pyHexLineMatch s) = true := by
      simp only [pyHexLineMatch, Bool.and_eq_true, Bool.or_eq_true,
        decide_eq_true_eq, List.all_eq_true]
      obtain ⟨h1, h2⟩ := h
      exact ⟨h1, h2⟩
    simp [raise_on_invalid_thumbprint, hb, h]
  · have hb : ¬ (((s.length = 32 || s.length = 40) && pyHexLineMatch s) = true) := by
      intro hbb
      apply h
      simp only [pyHexLineMatch, Bool.and_eq_true, Bool.or_eq_true,
        decide_eq_true_eq, List.all_eq_true] at hbb
      exact ⟨hbb.1, hbb.2⟩
    rw [raise_on_invalid_thumbprint, if_neg hb]
    simp [h]

theorem raise_on_invalid_thumbprint_error (s : List Char) (e : PyErr)
    (h : raise_on_invalid_thumbprint s = .error e) :
    e = .assertionError thumbprintErrMsg := by
  rw [raise_on_invalid_thumbprint] at h
  split at h
  · exact absurd h (by simp)
  · injection h with h
    exact h.symm

/--
C2 (amended).  The thumbprint check accepts a thumbprint string if and only
if, after stripping `:` and space separators and lowercasing, the result
has length exactly 32 or 40 and matches `^[a-f\d]*$` under Python
semantics — that is, every character is a hexadecimal digit `[0-9a-f]`,
**except that a string whose final character is a newline and whose other
characters are all hex digits is also accepted** (Python's `$` matches just
before a trailing newline); on rejection it fails with the
AssertionError("thumbprint does not match a known format") before any
cryptographic work (`create` calls `_reduce_thumbprint` first).  The
trailing-newline exception is forced by
`reduce_thumbprint_newline_counterexample`.
-/
theorem reduce_thumbprint_c2 (t : String) :
    ((∃ v, reduce_thumbprint t = .ok v) ↔ specThumbprintOk (canonicalThumbprint t))
    ∧ ((∃ v, reduce_thumbprint t = .ok v) → reduce_thumbprint t
        = .ok (canonicalThumbprint t))
    ∧ (¬ specThumbprintOk (canonicalThumbprint t) →
        reduce_thumbprint t = .error (.assertionError thumbprintErrMsg)) := by
  refine ⟨⟨?_, ?_⟩, ?_, ?_⟩
  · rintro ⟨v, hv⟩
    rw [reduce_thumbprint] at hv
    cases hr : raise_on_invalid_thumbprint (canonicalThumbprint t) with
    | error e => rw [hr] at hv; exact absurd hv (by simp)
    | ok u =>
      cases u
      exact (raise_on_invalid_thumbprint_iff _).mp hr
  · intro h
    refine ⟨canonicalThumbprint t, ?_⟩
    rw [reduce_thumbprint, (raise_on_invalid_thumbprint_iff _).mpr h]
  · rintro ⟨v, hv⟩
    rw [reduce_thumbprint] at hv ⊢
    cases hr : raise_on_invalid_thumbprint (canonicalThumbprint t) with
    | error e => rw [hr] at hv; exact absurd hv (by simp)
    | ok u => cases u; rfl
  · intro hn
    rw [reduce_thumbprint]
    cases hr : raise_on_invalid_thumbprint (canonicalThumbprint t) with
    | ok u =>
      cases u
      exact absurd ((raise_on_invalid_thumbprint_iff _).mp hr) hn
    | error e =>
      rw [raise_on_invalid_thumbprint_error _ e hr]

/-- Witness for C2: `"xyz"` is rejected with the AssertionError. -/
theorem reduce_thumbprint_c2_witness :
    reduce_thumbprint "xyz" = .error (.assertionError thumbprintErrMsg) :=
  (reduce_thumbprint_c2 "xyz").2.2 (by decide)

/--
Counterexample to C2 as stated.  The 40-character canonical thumbprint made
of 39 `a`s and a final newline contains a non-hex character, so the claim
says it must be rejected with AssertionError; the code accepts it, because
`re.search("^[a-f\d]*$", s)` matches when `$` lands just before the
trailing newline.  (Behaviour confirmed against CPython `re`.)
-/
theorem reduce_thumbprint_newline_counterexample :
    reduce_thumbprint (String.mk (List.replicate 39 'a' ++ ['\n']))
      = .ok (List.replicate 39 'a' ++ ['\n'])
    ∧ (List.replicate 39 'a' ++ ['\n']).length = 40
    ∧ '\n' ∈ (List.replicate 39 'a' ++ ['\n'])
    ∧ isHexCharPy '\n' = false := by
  refine ⟨by decide, by decide, by decide, by decide⟩

/-! ## Claim C3 -/

/-- The standard base64 alphabet, indexed 0-63. -/
def b64Char (n : Nat) : Char :=
  ("ABCDEFGHIJKLMNOPQRSTUVWXYZabcdefghijklmnopqrstuvwxyz0123456789+/").data.getD n '?'

/-- `base64.b64encode` on a byte list: 3 bytes become 4 alphabet
characters; a 1- or 2-byte final group is padded with `=`. -/
def b64encodeBytes : List Nat → List Char
  | [] => []
  | [b1] => [b64Char (b1 / 4), b64Char (b1 % 4 * 16), '=', '=']
  | [b1, b2] =>
    [b64Char (b1 / 4), b64Char (b1 % 4 * 16 + b2 / 16), b64Char (b2 % 16 * 4), '=']
  | b1 :: b2 :: b3 :: rest =>
    b64Char (b1 / 4) :: b64Char (b1 % 4 * 16 + b2 / 16)
      :: b64Char (b2 % 16 * 4 + b3 / 64) :: b64Char (b3 % 64)
      :: b64encodeBytes rest

/-- Modelled from the spec:
`util.convert_regular_to_urlsafe_b64encoded_string` (the util module is not
under src/): replace `+` with `-` and `/` with `_`, and strip the `=`
padding. -/
def convert_regular_to_urlsafe_b64encoded_string (s : List Char) : List Char :=
  (s.map (fun c => if c = '+' then '-' else if c = '/' then '_' else c)).filter
    (fun c => c != '=')

/--
`_create_x5t_value` (lines 55-58) as written:
`hex_str = thumbprint.replace(':', '').replace(' ', '')`, then
`b64_str = base64.b64encode(hex_str)` — note that this base64-encodes the
**ASCII characters of the hex string itself**, not the bytes the hex string
represents (under Python 2 string semantics; on Python 3 `b64encode` of a
`str` raises `TypeError` outright) — then the URL-safe conversion.
-/
def create_x5t_value (thumbprint : String) : List Char :=
  let hex_str := thumbprint.data.filter (fun c => c != ':' && c != ' ')
  convert_regular_to_urlsafe_b64encoded_string
    (b64encodeBytes (hex_str.map Char.toNat))

/-- The value of one hex digit `[0-9a-f]`. -/
def hexVal (c : Char) : Option Nat :=
  if '0' ≤ c && c ≤ '9' then some (c.toNat - '0'.toNat)
  else if 'a' ≤ c && c ≤ 'f' then some (c.toNat - 'a'.toNat + 10)
  else none

/-- Decode a hex string into the byte list it represents. -/
def hexDecode : List Char → Option (List Nat)
  | [] => some []
  | c1 :: c2 :: rest =>
    (match hexVal c1, hexVal c2, hexDecode rest with
     | some h, some l, some bs => some ((h * 16 + l) :: bs)
     | _, _, _ => none)
  | [_] => none

/-- Modelled from the spec: derive `x5t` by base64-encoding the **raw
bytes represented by the hex thumbprint** and converting to URL-safe
base64 (spec §4.2 step 2). -/
def x5t_from_spec (thumbprint : String) : Option (List Char) :=
  (hexDecode (thumbprint.data.filter (fun c => c != ':' && c != ' '))).map
    (fun bytes => convert_regular_to_urlsafe_b64encoded_string (b64encodeBytes bytes))

/--
C3 evaluated at the failing input (code bug).  For the valid normalized
thumbprint of 32 `0`s, the raw bytes are sixteen zero bytes and the spec's
x5t is the 22-character `AAAAAAAAAAAAAAAAAAAAAA`; the code instead encodes
the 32 ASCII characters of the hex string, producing a 43-character value,
so base64url-decoding the produced x5t cannot recover the bytes the
thumbprint represents.
-/
theorem create_x5t_value_code_bug :
    hexDecode (String.mk (List.replicate 32 '0')).data = some (List.replicate 16 0)
    ∧ x5t_from_spec (String.mk (List.replicate 32 '0'))
        = some (List.replicate 22 'A')
    ∧ (create_x5t_value (String.mk (List.replicate 32 '0'))).length = 43
    ∧ create_x5t_value (String.mk (List.replicate 32 '0'))
        ≠ (x5t_from_spec (String.mk (List.replicate 32 '0'))).getD [] := by
  refine ⟨by decide, by decide, by decide, by decide⟩

/-! ## Claim C4 -/

/-- Modelled from the spec: `Jwt.SELF_SIGNED_JWT_LIFETIME` (the constants
module is not under src/): a "fixed configured duration (minutes)",
modelled as 10 minutes. -/
def SELF_SIGNED_JWT_LIFETIME : Int := 10

/-- The claim set built by `_create_payload`. -/
structure JwtPayload where
  aud : String
  iss : String
  sub : String
  nbf : Int
  exp : Int
  jti : Nat
deriving DecidableEq

/--
`_create_payload` (lines 68-84).  The current time is captured exactly
once (`now = self._get_date_now()`); `expires = now +
timedelta(minutes=SELF_SIGNED_JWT_LIFETIME)`; the payload carries
`aud = token_endpoint`, `iss = sub = client_id`,
`nbf = int(time.mktime(now.timetuple()))`,
`exp = int(time.mktime(expires.timetuple()))`, and a fresh `uuid4()` as
`jti`.  `timetuple()` discards sub-second precision and `mktime` inverts
it, so both timestamps are the whole-second floor of the respective
instants; `nowSec` is that floor of the single captured time, and adding a
whole number of minutes commutes with the floor, making
`exp = nowSec + 60·LIFETIME` exactly.  The fresh UUID is modelled by the
caller-supplied identifier `jwtId`.
-/
def create_payload (token_endpoint client_id : String) (nowSec : Int)
    (jwtId : Nat) : JwtPayload :=
  { aud := token_endpoint, iss := client_id, sub := client_id,
    nbf := nowSec, exp := nowSec + 60 * SELF_SIGNED_JWT_LIFETIME, jti := jwtId }

/--
C4.  On every call the captured time determines both `nbf` and `exp`, with
`exp - nbf` equal to the configured lifetime in seconds (60 ·
SELF_SIGNED_JWT_LIFETIME), hence `exp > nbf`; and two calls with identical
endpoint/client inputs but fresh UUIDs produce different `jti` while
`nbf`/`exp` reflect each call's own capture time.
-/
theorem create_payload_c4 (te cid : String) (n1 n2 : Int) (j1 j2 : Nat)
    (hj : j1 ≠ j2) :
    (create_payload te cid n1 j1).exp - (create_payload te cid n1 j1).nbf
        = 60 * SELF_SIGNED_JWT_LIFETIME
    ∧ (create_payload te cid n2 j2).exp - (create_payload te cid n2 j2).nbf
        = 60 * SELF_SIGNED_JWT_LIFETIME
    ∧ (create_payload te cid n1 j1).nbf < (create_payload te cid n1 j1).exp
    ∧ (create_payload te cid n1 j1).jti ≠ (create_payload te cid n2 j2).jti
    ∧ (create_payload te cid n1 j1).nbf = n1
    ∧ (create_payload te cid n2 j2).nbf = n2 := by
  refine ⟨?_, ?_, ?_, hj, rfl, rfl⟩
  · simp [create_payload]
  · simp [create_payload]
  · simp only [create_payload, SELF_SIGNED_JWT_LIFETIME]
    omega

/-- Witness for C4 at concrete times and identifiers. -/
theorem create_payload_c4_witness :
    (create_payload "e" "c" 1000 1).exp - (create_payload "e" "c" 1000 1).nbf
        = 60 * SELF_SIGNED_JWT_LIFETIME
    ∧ (create_payload "e" "c" 1000 1).jti ≠ (create_payload "e" "c" 2000 2).jti := by
  have h := create_payload_c4 "e" "c" 1000 2000 1 2 (by decide)
  exact ⟨h.1, h.2.2.2.1⟩

/-! ## Claim C7 -/

/-- Python `str.split('.')`: split on every dot; `""` splits to `[""]`. -/
def splitOnDot (l : List Char) : List (List Char) :=
  match l with
  | [] => [[]]
  | c :: r =>
    let rest := splitOnDot r
    if c = '.' then [] :: rest
    else
      match rest with
      | s :: t => (c :: s) :: t
      | [] => [[c]]

def signatureErrMsg : String :=
  "Failed to sign JWT. This is most likely due to an invalid certificate."

/--
`_raise_on_invalid_jwt_signature` (lines 86-90) **as written**: it computes
`segments = jwt.split('.')`, but the guard reads `seqments` — an undefined
name — so evaluating `len(seqments) < 3` raises `NameError` on every call,
before `segments` is ever consulted.
-/
def raise_on_invalid_jwt_signature (jwt : String) : Except PyErr Unit :=
  let _segments := splitOnDot jwt.data
  .error (.nameError "name 'seqments' is not defined")

/--
Modelled from the spec (§4.2 step 6), which is the evident intent of lines
86-90 with `segments` spelled correctly: split the signing result on `.`,
require at least 3 segments and a non-empty third (signature) segment,
otherwise fail; the raised `self._log.create_error(...)` is modelled as
AssertionError per spec §7.
-/
def raise_on_invalid_jwt_signature_intended (jwt : String) : Except PyErr Unit :=
  let segments := splitOnDot jwt.data
  if segments.length < 3 ∨ segments.getD 2 [] = [] then
    .error (.assertionError signatureErrMsg)
  else .ok ()

/--
C7 (code bug).  The intended guard accepts any three-plus-segment result
with a non-empty third segment and rejects the rest with AssertionError —
but the code as written raises `NameError` (misspelt `seqments`) on every
input, including the well-formed token `a.b.c` that the claim says is
returned unchanged by `_sign_jwt`.
-/
theorem raise_on_invalid_jwt_signature_c7 :
    (∀ jwt : String, raise_on_invalid_jwt_signature jwt
        = .error (.nameError "name 'seqments' is not defined"))
    ∧ raise_on_invalid_jwt_signature_intended "a.b.c" = .ok ()
    ∧ raise_on_invalid_jwt_signature_intended "a.b." 
        = .error (.assertionError signatureErrMsg)
    ∧ raise_on_invalid_jwt_signature_intended "a.b"
        = .error (.assertionError signatureErrMsg)
    ∧ raise_on_invalid_jwt_signature_intended "eyJ0.eyJh.sig"
        = .ok () := by
  refine ⟨fun jwt => rfl, by decide, by decide, by decide, by decide⟩
